import Mathlib

/-!
Verification of the ConTima-Data-Lab file-intake-to-model-contract pipeline.

This file gives a shallow embedding of the pipeline code:
* `src/utils/fileUtils.ts` — `readFileAsText` (content truncation),
* the analysis service (`analyzeFiles` response normalization / chart
  flattening, `initializeChat` context-message assembly),
* the app workflow (`handleFilesSelected` deduplication, `handleAnalyze`
  batch ingestion), and
* the chat interface (`handleSend` turn handling).

Modelling conventions:
* JavaScript values reached by the chart-flattening code are modelled by
  `JsVal`; `JsVal.undefined` stands for `undefined` (reading an absent
  property). Objects are insertion-ordered association lists with
  pairwise-distinct keys, which is what `JSON.parse` produces.
* Code that can throw is modelled in `Except String`; a thrown
  `TypeError` or a rejected promise becomes `Except.error`.
* `JSON.parse` itself is a host builtin; functions consuming its result
  take the parse outcome (`Except String JsVal`) as an argument.
* `Date.now()` (used only to mint message ids) is modelled by a
  monotonic counter threaded through the chat state.
* Strings are Lean `String`s; JavaScript indexes UTF-16 code units while
  Lean counts characters, which agrees on the basic multilingual plane.
-/

namespace ConTima

/-- JavaScript runtime values as produced by `JSON.parse`, plus `undefined`
for the result of reading an absent property. -/
inductive JsVal where
  | undefined : JsVal
  | null : JsVal
  | bool : Bool → JsVal
  | num : Int → JsVal
  | str : String → JsVal
  | arr : List JsVal → JsVal
  | obj : List (String × JsVal) → JsVal

/-- JavaScript truthiness: `undefined`, `null`, `false`, `0` and `""`
are falsy; every other value (including empty arrays and objects) is
truthy. -/
def truthy : JsVal → Bool
  | .undefined => false
  | .null => false
  | .bool b => b
  | .num n => n != 0
  | .str s => s != ""
  | .arr _ => true
  | .obj _ => true

/-- Model of `Array.isArray`. -/
def isArr : JsVal → Bool
  | .arr _ => true
  | _ => false

/-- The guard pattern `v && Array.isArray(v)` from the source. -/
def isTruthyArray (v : JsVal) : Bool := truthy v && isArr v

/-- First-match lookup in an object field list (JavaScript own-property
lookup; field lists coming from `JSON.parse` have distinct keys). -/
def fieldLookup : List (String × JsVal) → String → Option JsVal
  | [], _ => none
  | e :: rest, k => if e.1 = k then some e.2 else fieldLookup rest k

/-- JavaScript property read `v[k]`: throws a `TypeError` on `null` or
`undefined`, returns `undefined` for absent fields and for primitives
(built-in properties such as `length` are never read by this code). -/
def getProp : JsVal → String → Except String JsVal
  | .undefined, _ => .error "TypeError: cannot read properties of undefined"
  | .null, _ => .error "TypeError: cannot read properties of null"
  | .obj fs, k => .ok ((fieldLookup fs k).getD .undefined)
  | _, _ => .ok .undefined

/-- JavaScript property write on an object: replaces the first binding
of the key in place (JS keeps the original insertion position), else
appends a new binding. -/
def setField : List (String × JsVal) → String → JsVal → List (String × JsVal)
  | [], k, v => [(k, v)]
  | e :: rest, k, v => if e.1 = k then (e.1, v) :: rest else e :: setField rest k v

/-- Property assignment `j[k] = v`. In the flattening code the target is
always an object (guarded by the `Array.isArray(result.charts)` check),
so the non-object branch is unreachable there. -/
def setProp (j : JsVal) (k : String) (v : JsVal) : JsVal :=
  match j with
  | .obj fs => .obj (setField fs k v)
  | other => other

/-- Own enumerable fields contributed by object spread `{ ...v }`:
objects spread their fields, arrays and strings spread index keys,
primitives spread nothing. -/
def spreadFields : JsVal → List (String × JsVal)
  | .obj fs => fs
  | .arr xs => xs.enum.map (fun p => (toString p.1, p.2))
  | .str s => s.data.enum.map (fun p => (toString p.1, JsVal.str (String.singleton p.2)))
  | _ => []

mutual

/-- JavaScript `ToPropertyKey` / `String(v)` coercion used for computed
object keys (`{ [chart.xAxisKey]: ... }` and `dataPoint[s.key] = ...`). -/
def toPropKey : JsVal → String
  | .undefined => "undefined"
  | .null => "null"
  | .bool b => if b then "true" else "false"
  | .num n => toString n
  | .str s => s
  | .obj _ => "[object Object]"
  | .arr xs => String.intercalate "," (arrPartStrings xs)

/-- Element strings for `Array.prototype.toString` (elements that are
`null` or `undefined` print as the empty string). -/
def arrPartStrings : List JsVal → List String
  | [] => []
  | JsVal.undefined :: rest => "" :: arrPartStrings rest
  | JsVal.null :: rest => "" :: arrPartStrings rest
  | v :: rest => toPropKey v :: arrPartStrings rest

end

/-- Sequential `Array.prototype.map` where the callback may throw; the
first exception propagates. -/
def mapExcept (f : α → Except String β) : List α → Except String (List β)
  | [] => .ok []
  | x :: xs =>
    match f x with
    | .error e => .error e
    | .ok y =>
      match mapExcept f xs with
      | .error e => .error e
      | .ok ys => .ok (y :: ys)

/-- Sequential `Array.prototype.forEach` accumulating a value, where the
callback may throw; the first exception propagates. -/
def foldExcept (f : σ → α → Except String σ) : σ → List α → Except String σ
  | s, [] => .ok s
  | s, x :: xs =>
    match f s x with
    | .error e => .error e
    | .ok s2 => foldExcept f s2 xs

/-- Body of the per-series `forEach` in `analyzeFiles`
(`dataPoint[s.key] = s.value`). -/
def addSeriesEntry (dp : List (String × JsVal)) (s : JsVal) : Except String (List (String × JsVal)) :=
  match getProp s "key" with
  | .error e => .error e
  | .ok kV =>
    match getProp s "value" with
    | .error e => .error e
    | .ok vV => .ok (setField dp (toPropKey kV) vV)

/-- Per-data-point callback of the chart flattening in `analyzeFiles`
(src/unnamed/part_003 lines 129-139): build
`dataPoint = { [chart.xAxisKey]: item.name }`, then copy each series
entry into it when `item.series` is a (truthy) array. `xKeyVal` is the
value of `chart.xAxisKey`, read from the enclosing chart object. -/
def flattenPoint (xKeyVal : JsVal) (item : JsVal) : Except String JsVal :=
  match getProp item "name" with
  | .error e => .error e
  | .ok nameV =>
    let dp0 := [(toPropKey xKeyVal, nameV)]
    match getProp item "series" with
    | .error e => .error e
    | .ok seriesV =>
      if truthy seriesV && isArr seriesV then
        match seriesV with
        | .arr entries =>
          match foldExcept addSeriesEntry dp0 entries with
          | .error e => .error e
          | .ok dp => .ok (.obj dp)
        | _ => .ok (.obj dp0)
      else .ok (.obj dp0)

/-- Per-chart callback of the flattening in `analyzeFiles`
(src/unnamed/part_003 lines 128-145):
`const flatData = chart.data?.map(...) || []` followed by
`return { ...chart, data: flatData }`. When `chart.data` is `null` or
`undefined` the optional chain yields `undefined` and `|| []` supplies
the empty array; when it is a non-array non-nullish value, `.map` is not
a function and a `TypeError` is thrown. `chart.xAxisKey` is read inside
the per-item callback; as a pure repeated read it is hoisted here. -/
def flattenChart (chart : JsVal) : Except String JsVal :=
  match getProp chart "data" with
  | .error e => .error e
  | .ok dataV =>
    match dataV with
    | .undefined => .ok (.obj (setField (spreadFields chart) "data" (.arr [])))
    | .null => .ok (.obj (setField (spreadFields chart) "data" (.arr [])))
    | .arr items =>
      match getProp chart "xAxisKey" with
      | .error e => .error e
      | .ok xv =>
        match mapExcept (flattenPoint xv) items with
        | .error e => .error e
        | .ok flat => .ok (.obj (setField (spreadFields chart) "data" (.arr flat)))
    | _ => .error "TypeError: chart.data.map is not a function"

/-- The chart-normalization step of `analyzeFiles` (src/unnamed/part_003
lines 127-147): when `result.charts` is a truthy array, replace it by
the flattened charts; otherwise leave the result untouched. -/
def transformCharts (result : JsVal) : Except String JsVal :=
  match getProp result "charts" with
  | .error e => .error e
  | .ok chartsV =>
    if truthy chartsV && isArr chartsV then
      match chartsV with
      | .arr charts =>
        match mapExcept flattenChart charts with
        | .error e => .error e
        | .ok charts2 => .ok (setProp result "charts" (.arr charts2))
      | _ => .ok result
    else .ok result

/-- Response-handling tail of `analyzeFiles` (src/unnamed/part_003 lines
120-149): `text` is `response.text` (`none` models `undefined`; the
falsy check also rejects the empty string), `parsed` is the outcome of
the host builtin `JSON.parse text` (`Except.error` models a thrown
`SyntaxError`). The surrounding `try/catch` logs and rethrows, so every
error propagates unchanged. -/
def analyzeFilesNormalize (text : Option String) (parsed : Except String JsVal) : Except String JsVal :=
  match text with
  | none => .error "No response from Gemini"
  | some t =>
    if t = "" then .error "No response from Gemini"
    else
      match parsed with
      | .error e => .error e
      | .ok result => transformCharts result

/-- Browser file handle: the `name` and `size` of a selected `File`. -/
structure FileHandle where
  name : String
  size : Nat
deriving DecidableEq, Repr

/-- The `FileData` record of src/types.ts. -/
structure FileData where
  name : String
  content : String
  size : Nat
deriving DecidableEq, Repr

/-- The `MAX_CHARS` bound of `readFileAsText` (src/utils/fileUtils.ts). -/
def MAX_CHARS : Nat := 150000

/-- The literal truncation marker appended by `readFileAsText`. -/
def TRUNC_MARKER : String := "\n...[TRUNCATED]"

/-- The truncation step of `readFileAsText` (src/utils/fileUtils.ts
lines 10-13). -/
def truncatedContent (content : String) : String :=
  if content.length > MAX_CHARS then content.take MAX_CHARS ++ TRUNC_MARKER
  else content

/-- Model of `readFileAsText` (src/utils/fileUtils.ts): `readOutcome` is
the `FileReader` result — the decoded text on `onload`, an error on
`onerror` (which rejects the promise). -/
def readFileAsText (file : FileHandle) (readOutcome : Except String String) : Except String FileData :=
  match readOutcome with
  | .error e => .error e
  | .ok content => .ok ⟨file.name, truncatedContent content, file.size⟩

/-- Model of `handleFilesSelected` (src/unnamed/part_003 lines 205-213):
append the newly selected files, dropping any whose name is already
present. -/
def handleFilesSelected (prev newFiles : List FileHandle) : List FileHandle :=
  let existingNames := prev.map (fun f => f.name)
  prev ++ newFiles.filter (fun f => !(existingNames.contains f.name))

/-- Prompt assembly of `analyzeFiles` (src/unnamed/part_003 lines
27-34): header, one labeled block per file in order, closing directive. -/
def promptText (files : List FileData) : String :=
  let base := "Analyze the following CSV files:\n\n"
  let withFiles := files.enum.foldl
    (fun acc p =>
      acc ++ "--- FILE " ++ toString (p.1 + 1) ++ ": " ++ p.2.name ++ " ---\n"
        ++ p.2.content ++ "\n\n")
    base
  withFiles ++ "\nProvide a detailed analysis following the ConTima structure."

/-- Specification-side shape of the per-file blocks: used to state that
the fold in `promptText` produces exactly one labeled block per file.
`i` is the 1-based index of the first file in the list. -/
def fileBlocks : Nat → List FileData → String
  | _, [] => ""
  | i, f :: rest =>
    "--- FILE " ++ toString i ++ ": " ++ f.name ++ " ---\n" ++ f.content ++ "\n\n"
      ++ fileBlocks (i + 1) rest

/-- The `impact` union of the `Recommendation` interface (src/types.ts). -/
inductive Impact where
  | High | Medium | Low
deriving DecidableEq, Repr

/-- String form of an `impact` value (as it appears in the parsed JSON). -/
def impactString : Impact → String
  | .High => "High"
  | .Medium => "Medium"
  | .Low => "Low"

/-- The `Recommendation` interface of src/types.ts. -/
structure Recommendation where
  action : String
  impact : Impact
  description : String
deriving DecidableEq, Repr

/-- An entry of `AnalysisResult.filesDetected` (src/types.ts). -/
structure FileDetected where
  name : String
  purpose : String
deriving DecidableEq, Repr

/-- The chart `type` union of src/types.ts. -/
inductive ChartType where
  | bar | line | area
deriving DecidableEq, Repr

/-- The `ChartConfig` interface of src/types.ts; data points are the
flat mappings produced by normalization. -/
structure ChartConfig where
  title : String
  type : ChartType
  data : List JsVal
  dataKeys : List String
  xAxisKey : String

/-- The `AnalysisResult` interface of src/types.ts. -/
structure AnalysisResult where
  filesDetected : List FileDetected
  contentPerformance : Option String
  retention : Option String
  revenue : Option String
  thumbnails : Option String
  combinedStrategicInsights : String
  recommendations : List Recommendation
  charts : Option (List ChartConfig)

/-- Lowercase hexadecimal digit, for JSON control-character escapes. -/
def hexDigitChar (n : Nat) : Char :=
  if n < 10 then Char.ofNat (48 + n) else Char.ofNat (87 + n)

/-- JSON.stringify escaping of a single character. -/
def escapeJsonChar (c : Char) : String :=
  if c = Char.ofNat 34 then "\\\""
  else if c = Char.ofNat 92 then "\\\\"
  else if c = Char.ofNat 10 then "\\n"
  else if c = Char.ofNat 13 then "\\r"
  else if c = Char.ofNat 9 then "\\t"
  else if c = Char.ofNat 8 then "\\b"
  else if c = Char.ofNat 12 then "\\f"
  else if c.toNat < 32 then
    "\\u00" ++ String.singleton (hexDigitChar (c.toNat / 16))
      ++ String.singleton (hexDigitChar (c.toNat % 16))
  else String.singleton c

/-- JSON.stringify of a string value (quoted, escaped). -/
def jsonQuote (s : String) : String :=
  "\"" ++ String.join (s.data.map escapeJsonChar) ++ "\""

/-- JSON.stringify of one `Recommendation` (fields in interface order,
which is the order of the declared response schema). -/
def stringifyRecommendation (r : Recommendation) : String :=
  "\x7b\"action\":" ++ jsonQuote r.action
    ++ ",\"impact\":" ++ jsonQuote (impactString r.impact)
    ++ ",\"description\":" ++ jsonQuote r.description ++ "\x7d"

/-- JSON.stringify of one `filesDetected` entry. -/
def stringifyFileDetected (f : FileDetected) : String :=
  "\x7b\"name\":" ++ jsonQuote f.name ++ ",\"purpose\":" ++ jsonQuote f.purpose ++ "\x7d"

/-- JSON.stringify of the `analysisSummary` literal built in
`initializeChat` (src/unnamed/part_003 lines 176-180): an object with
exactly the keys `insights`, `recommendations` and `filesDetected`, in
literal order. -/
def stringifyAnalysisSummary (analysis : AnalysisResult) : String :=
  "\x7b\"insights\":" ++ jsonQuote analysis.combinedStrategicInsights
    ++ ",\"recommendations\":["
    ++ String.intercalate "," (analysis.recommendations.map stringifyRecommendation)
    ++ "],\"filesDetected\":["
    ++ String.intercalate "," (analysis.filesDetected.map stringifyFileDetected)
    ++ "]\x7d"

/-- The chat seed message built by `initializeChat` (src/unnamed/part_003
lines 169-183): per-file labeled blocks, the condensed analysis summary,
and the closing acknowledgment instruction. -/
def contextMsg (files : List FileData) (analysis : AnalysisResult) : String :=
  let base := "Here is the context for our session:\n\n"
  let withFiles := files.enum.foldl
    (fun acc p =>
      acc ++ "--- FILE " ++ toString (p.1 + 1) ++ ": " ++ p.2.name ++ " ---\n"
        ++ p.2.content ++ "\n\n")
    base
  let withSummary := withFiles ++ "--- INITIAL ANALYSIS SUMMARY ---\n"
    ++ stringifyAnalysisSummary analysis ++ "\n\n"
  withSummary
    ++ "Please acknowledge you have received the data and are ready for questions. Do not repeat the analysis."

/-- The `AppState` enum of src/types.ts. -/
inductive AppState where
  | IDLE | ANALYZING | COMPLETE | ERROR
deriving DecidableEq, Repr

/-- The workflow state held by the `App` component (src/unnamed/part_003
lines 199-203). -/
structure AppUI where
  files : List FileHandle
  fileDataList : List FileData
  appState : AppState
  analysisData : Option AnalysisResult
  errorMsg : Option String

/-- Model of `Promise.all` over already-determined outcomes: succeeds
with all values, or fails with a single rejection. `Promise.all`
rejects with the first rejection to settle; list order stands in for
settlement order. -/
def promiseAll : List (Except String α) → Except String (List α)
  | [] => .ok []
  | .error e :: _ => .error e
  | .ok a :: rest =>
    match promiseAll rest with
    | .error e => .error e
    | .ok as2 => .ok (a :: as2)

/-- The fallback in `setErrorMsg(err.message || "...")`. -/
def errMsgOrDefault (e : String) : String :=
  if e = "" then "An unexpected error occurred during analysis." else e

/-- Model of `handleAnalyze` (src/unnamed/part_003 lines 219-241).
`reads` gives each selected file its `FileReader` outcome (the
environmental part of `readFileAsText`), and `analyze` is the
`analyzeFiles` network call on the ingested data. -/
def handleAnalyze (st : AppUI) (reads : List (Except String String))
    (analyze : List FileData → Except String AnalysisResult) : AppUI :=
  if st.files.length = 0 then st
  else
    let st1 := { st with appState := AppState.ANALYZING, errorMsg := none }
    match promiseAll ((st.files.zip reads).map (fun p => readFileAsText p.1 p.2)) with
    | .error e => { st1 with appState := AppState.ERROR, errorMsg := some (errMsgOrDefault e) }
    | .ok dataList =>
      let st2 := { st1 with fileDataList := dataList }
      match analyze dataList with
      | .error e => { st2 with appState := AppState.ERROR, errorMsg := some (errMsgOrDefault e) }
      | .ok result =>
        { st2 with analysisData := some result, appState := AppState.COMPLETE }

/-- Chat message roles (src/types.ts `ChatMessage.role`). -/
inductive Role where
  | user | model
deriving DecidableEq, Repr

/-- The `ChatMessage` record of src/types.ts; the optional `isStreaming`
flag is modelled as a `Bool` (absent = `false`). Ids are modelled as
naturals (`Date.now()` becomes a monotonic counter). -/
structure ChatMessage where
  id : Nat
  role : Role
  text : String
  isStreaming : Bool
deriving DecidableEq, Repr

/-- The state held by the `ChatInterface` component (src/unnamed/part_000
lines 40-44): message list, input box, busy flag, session handle
presence, and the id counter standing in for `Date.now()`. -/
structure ChatUI where
  messages : List ChatMessage
  input : String
  isTyping : Bool
  hasSession : Bool
  nextId : Nat
deriving DecidableEq, Repr

/-- Environmental behavior of one `sendMessageStream` call: the call
itself may reject, or the stream delivers some chunks and then either
ends normally or fails mid-stream. -/
inductive StreamOutcome where
  | openError : StreamOutcome
  | chunksThenDone : List String → StreamOutcome
  | chunksThenError : List String → StreamOutcome

/-- Whitespace removed by `String.prototype.trim` (the characters of
the WhiteSpace and LineTerminator productions that occur in practice). -/
def isJsWhitespace (c : Char) : Bool :=
  c = Char.ofNat 32 || c = Char.ofNat 9 || c = Char.ofNat 10 || c = Char.ofNat 13
    || c = Char.ofNat 11 || c = Char.ofNat 12 || c = Char.ofNat 160 || c = Char.ofNat 65279

/-- Model of `String.prototype.trim`: strip leading and trailing
whitespace. -/
def jsTrim (s : String) : String :=
  String.mk (((s.data.dropWhile isJsWhitespace).reverse.dropWhile isJsWhitespace).reverse)

/-- The generic in-chat error text appended by the `catch` block of
`handleSend`. -/
def chatErrorText : String :=
  "I encountered an error processing your request. Please try again."

/-- The `setMessages` update applied per stream chunk: set the bot
placeholder text to the accumulated `fullText`. -/
def updateBotText (msgs : List ChatMessage) (botId : Nat) (txt : String) : List ChatMessage :=
  msgs.map (fun m => if m.id = botId then { m with text := txt } else m)

/-- The `setMessages` update clearing the placeholder streaming flag
after the stream completes normally. -/
def settleBot (msgs : List ChatMessage) (botId : Nat) : List ChatMessage :=
  msgs.map (fun m => if m.id = botId then { m with isStreaming := false } else m)

/-- States produced while consuming the chunk stream (one per
`setMessages` call; chunks with falsy text are skipped by the
`if (c.text)` guard). `full` is the accumulated `fullText`. -/
def applyChunks (botId : Nat) (st : ChatUI) (full : String) : List String → List ChatUI
  | [] => []
  | c :: rest =>
    if c = "" then applyChunks botId st full rest
    else
      let full2 := full ++ c
      let st2 := { st with messages := updateBotText st.messages botId full2 }
      st2 :: applyChunks botId st2 full2 rest

/-- Model of `handleSend` (src/unnamed/part_000 lines 83-133) as the
sequence of states after each state update. An empty result means the
guard `!input.trim() || !chatSessionRef.current || isTyping` rejected
the send and nothing changed. On a normal path the placeholder settles
and `isTyping` clears; when the stream fails mid-way the `catch` block
appends a fresh error message and the `finally` clears `isTyping`, but
the placeholder keeps its `isStreaming` flag (the update clearing it is
only reached on the normal path). -/
def sendStates (st : ChatUI) (outcome : StreamOutcome) : List ChatUI :=
  if jsTrim st.input = "" || !st.hasSession || st.isTyping then []
  else
    let userMsg : ChatMessage := ⟨st.nextId, Role.user, jsTrim st.input, false⟩
    let st1 : ChatUI :=
      { st with messages := st.messages ++ [userMsg], input := "",
                isTyping := true, nextId := st.nextId + 1 }
    match outcome with
    | .openError =>
      let errMsg : ChatMessage := ⟨st1.nextId, Role.model, chatErrorText, false⟩
      let st2 := { st1 with messages := st1.messages ++ [errMsg], nextId := st1.nextId + 1 }
      let st3 := { st2 with isTyping := false }
      [st1, st2, st3]
    | .chunksThenDone chunks =>
      let botId := st1.nextId
      let placeholder : ChatMessage := ⟨botId, Role.model, "", true⟩
      let st2 := { st1 with messages := st1.messages ++ [placeholder], nextId := st1.nextId + 1 }
      let mids := applyChunks botId st2 "" chunks
      let stLast := mids.getLast?.getD st2
      let st3 := { stLast with messages := settleBot stLast.messages botId }
      let st4 := { st3 with isTyping := false }
      [st1, st2] ++ mids ++ [st3, st4]
    | .chunksThenError chunks =>
      let botId := st1.nextId
      let placeholder : ChatMessage := ⟨botId, Role.model, "", true⟩
      let st2 := { st1 with messages := st1.messages ++ [placeholder], nextId := st1.nextId + 1 }
      let mids := applyChunks botId st2 "" chunks
      let stLast := mids.getLast?.getD st2
      let errMsg : ChatMessage := ⟨stLast.nextId, Role.model, chatErrorText, false⟩
      let st3 := { stLast with messages := stLast.messages ++ [errMsg], nextId := stLast.nextId + 1 }
      let st4 := { st3 with isTyping := false }
      [st1, st2] ++ mids ++ [st3, st4]

/-- Final state of one `handleSend` call. -/
def handleSend (st : ChatUI) (outcome : StreamOutcome) : ChatUI :=
  (sendStates st outcome).getLast?.getD st

/-- Number of messages whose streaming flag is set. -/
def countStreaming (msgs : List ChatMessage) : Nat :=
  (msgs.filter (fun m => m.isStreaming)).length

/-! Specification-side shapes used to state the claims about chart
normalization. -/

/-- A series entry in the nested schema shape: `{key, value}`. -/
def mkSeriesEntry (e : String × JsVal) : JsVal :=
  .obj [("key", .str e.1), ("value", e.2)]

/-- A data point in the nested schema shape: `{name, series: [...]}`. -/
def nestedPoint (nameV : JsVal) (entries : List (String × JsVal)) : JsVal :=
  .obj [("name", nameV), ("series", .arr (entries.map mkSeriesEntry))]

/-- The flat field list the flattening builds for one nested point:
start from `{[xAxisKey]: name}` and assign each series entry in order. -/
def flatFields (xKey : String) (nameV : JsVal) (entries : List (String × JsVal)) : List (String × JsVal) :=
  entries.foldl (fun dp e => setField dp e.1 e.2) [(xKey, nameV)]

/-- Value of the last series entry carrying a given key, if any
(later assignments to the same key overwrite earlier ones). -/
def lastVal : List (String × JsVal) → String → Option JsVal
  | [], _ => none
  | e :: rest, k =>
    match lastVal rest k with
    | some v => some v
    | none => if e.1 = k then some e.2 else none

/-- Own-field read that cannot throw (receiver known non-nullish). -/
def ownField (item : JsVal) (k : String) : JsVal :=
  match item with
  | .obj fs => (fieldLookup fs k).getD .undefined
  | _ => .undefined

/-- What re-flattening does to one already-flat data point: only the
`{[xAxisKey]: item.name}` field survives. -/
def collapsePoint (xv : JsVal) (item : JsVal) : JsVal :=
  .obj [(toPropKey xv, ownField item "name")]

/-! Concrete inputs used by the counterexamples and witnesses. -/

/-- A chart whose single data point carries a series entry whose key
collides with the xAxisKey (`date`). -/
def c3Chart : JsVal := .obj [("xAxisKey", .str "date"),
  ("data", .arr [.obj [("name", .str "Jan"),
    ("series", .arr [.obj [("key", .str "date"), ("value", .num 5)]])]])]

/-- A well-formed nested chart: one point `Jan` with one series entry
`Views = 100`. -/
def c4Chart : JsVal := .obj [("xAxisKey", .str "date"),
  ("data", .arr [.obj [("name", .str "Jan"),
    ("series", .arr [.obj [("key", .str "Views"), ("value", .num 100)]])]])]

/-- The flattening of `c4Chart`. -/
def c4Flat : JsVal := .obj [("xAxisKey", .str "date"),
  ("data", .arr [.obj [("date", .str "Jan"), ("Views", .num 100)]])]

/-- The flattening of `c4Flat`: the data point collapses to
`{date: undefined}`. -/
def c4Twice : JsVal := .obj [("xAxisKey", .str "date"),
  ("data", .arr [.obj [("date", .undefined)]])]

/-- Concrete file handles for the deduplication scenario. -/
def aCsv : FileHandle := ⟨"a.csv", 100⟩

/-- Second selection of a file named `a.csv` (different size, showing
the later duplicate is dropped, not merged). -/
def aCsv2 : FileHandle := ⟨"a.csv", 999⟩

/-- Concrete file handle `b.csv`. -/
def bCsv : FileHandle := ⟨"b.csv", 200⟩

/-- Concrete file handle `c.csv`. -/
def cCsv : FileHandle := ⟨"c.csv", 300⟩

/-- Initial workflow state with three selected files. -/
def c5Start : AppUI := ⟨[aCsv, bCsv, cCsv], [], AppState.IDLE, none, none⟩

/-- Read outcomes where file 2 fails. -/
def c5Reads : List (Except String String) :=
  [.ok "date,views\n2024-01-01,10", .error "NotReadableError", .ok "date,rpm\n2024-01-01,2"]

/-- A sample successful analysis used to show the analyze call result is
irrelevant once ingestion failed. -/
def c5Sample : AnalysisResult :=
  ⟨[⟨"a.csv", "Performance"⟩], none, none, none, none, "insights", [], none⟩

/-- Initial chat state for the mid-stream-failure scenario. -/
def c6Start : ChatUI := ⟨[⟨0, Role.model, "welcome", false⟩], "hi", false, true, 1⟩

/-- State after a send whose stream fails after delivering one chunk:
the placeholder keeps `isStreaming = true` while `isTyping` is reset. -/
def c6AfterFail : ChatUI := handleSend c6Start (.chunksThenError ["par"])

/-- The user types a new message after the failed turn. -/
def c6Retry : ChatUI := { c6AfterFail with input := "again" }

/-- A chat state with a turn in flight (`isTyping = true`). -/
def c6Typing : ChatUI := ⟨[⟨0, Role.model, "welcome", false⟩], "question", true, true, 7⟩

/-- Analysis results for the seed-message noninterference witness:
`c9A` and `c9B` agree on insights, recommendations and detected files
but differ in narrative sections and charts. -/
def c9A : AnalysisResult :=
  ⟨[⟨"views.csv", "Performance"⟩], none, some "retention narrative A", none, none,
    "combined insights", [⟨"Post more shorts", Impact.High, "High CTR"⟩], none⟩

/-- Variant of `c9A` with different narrative sections and charts. -/
def c9B : AnalysisResult :=
  ⟨[⟨"views.csv", "Performance"⟩], some "content narrative B", none, some "revenue B", none,
    "combined insights", [⟨"Post more shorts", Impact.High, "High CTR"⟩],
    some [⟨"Views by month", ChartType.bar, [], ["Views"], "month"⟩]⟩

/-- A small uploaded file for the prompt-assembly scenario. -/
def viewsCsv : FileData := ⟨"views.csv", "date,views\n2024-01-01,10\n2024-01-02,12", 40⟩

/-! Helper lemmas. -/

/-- Lookup after a property write: the written key reads back the new
value, every other key is unaffected. -/
theorem fieldLookup_setField (fs : List (String × JsVal)) (k : String) (v : JsVal) (k2 : String) :
    fieldLookup (setField fs k v) k2 = if k2 = k then some v else fieldLookup fs k2 := by
  induction fs with
  | nil =>
    simp only [setField, fieldLookup]
    rcases eq_or_ne k2 k with h | h
    · subst h; simp
    · rw [if_neg (Ne.symm h), if_neg h]
  | cons e rest ih =>
    simp only [setField]
    by_cases he : e.1 = k
    · rw [if_pos he]
      simp only [fieldLookup]
      rcases eq_or_ne k2 k with h2 | h2
      · subst h2; rw [if_pos he, if_pos rfl]
      · have hne : e.1 ≠ k2 := by rw [he]; exact fun hh => h2 hh.symm
        rw [if_neg hne, if_neg h2, if_neg hne]
    · rw [if_neg he]
      simp only [fieldLookup, ih]
      by_cases h3 : e.1 = k2
      · have hne : k2 ≠ k := fun hh => he (by rw [h3, hh])
        rw [if_pos h3, if_neg hne, if_pos h3]
      · rw [if_neg h3]
        rcases eq_or_ne k2 k with h4 | h4
        · rw [if_pos h4, if_pos h4]
        · rw [if_neg h4, if_neg h4, if_neg h3]

/-- Lookup after folding a list of property writes: the last write to
the key wins; with no write the original lookup shows through. -/
theorem fieldLookup_foldl_setField (entries : List (String × JsVal))
    (dp0 : List (String × JsVal)) (k : String) :
    fieldLookup (entries.foldl (fun dp e => setField dp e.1 e.2) dp0) k
      = match lastVal entries k with
        | some v => some v
        | none => fieldLookup dp0 k := by
  induction entries generalizing dp0 with
  | nil => rfl
  | cons e rest ih =>
    simp only [List.foldl_cons, ih (setField dp0 e.1 e.2), lastVal]
    cases h : lastVal rest k with
    | some v => simp
    | none =>
      simp only [fieldLookup_setField]
      by_cases he : e.1 = k
      · rw [if_pos he.symm, if_pos he]
      · rw [if_neg (fun hh => he hh.symm), if_neg he]

/-- The per-series `forEach` over schema-shaped entries never throws and
is the fold of plain property writes. -/
theorem foldExcept_addSeriesEntry (entries : List (String × JsVal))
    (dp0 : List (String × JsVal)) :
    foldExcept addSeriesEntry dp0 (entries.map mkSeriesEntry)
      = .ok (entries.foldl (fun dp e => setField dp e.1 e.2) dp0) := by
  induction entries generalizing dp0 with
  | nil => rfl
  | cons e rest ih =>
    have hstep : addSeriesEntry dp0 (mkSeriesEntry e) = .ok (setField dp0 e.1 e.2) := rfl
    simp only [List.map_cons, foldExcept, hstep]
    exact ih (setField dp0 e.1 e.2)

/-- A pointwise-successful callback makes `mapExcept` a plain map. -/
theorem mapExcept_congr {α β : Type} {f : α → Except String β} {g : α → β} :
    ∀ (l : List α), (∀ x ∈ l, f x = .ok (g x)) → mapExcept f l = .ok (l.map g) := by
  intro l
  induction l with
  | nil => intro _; rfl
  | cons x xs ih =>
    intro h
    simp only [mapExcept, h x (List.mem_cons_self x xs),
      ih (fun y hy => h y (List.mem_cons_of_mem x hy)), List.map_cons]

/-- The chart transform touches only the `charts` field of the result
object: every other field reads back unchanged afterwards. -/
theorem transformCharts_obj_preserves (fs : List (String × JsVal)) (k : String)
    (hk : k ≠ "charts") (j2 : JsVal) (h : transformCharts (.obj fs) = .ok j2) :
    ∃ fs2, j2 = .obj fs2 ∧ fieldLookup fs2 k = fieldLookup fs k := by
  simp only [transformCharts, getProp] at h
  split at h
  · split at h
    · split at h
      · cases h
      · cases h
        refine ⟨setField fs "charts" _, rfl, ?_⟩
        rw [fieldLookup_setField, if_neg hk]
    · cases h
      exact ⟨fs, rfl, rfl⟩
  · cases h
    exact ⟨fs, rfl, rfl⟩

/-- An aggregated wait containing a rejection rejects. -/
theorem promiseAll_error_of_mem {α : Type} {l : List (Except String α)} {e : String}
    (h : Except.error e ∈ l) : ∃ e2, promiseAll l = .error e2 := by
  induction l with
  | nil => cases h
  | cons x xs ih =>
    cases x with
    | error e1 => exact ⟨e1, rfl⟩
    | ok a =>
      have hx : Except.error e ∈ xs := by
        cases h with
        | tail _ hmem => exact hmem
      obtain ⟨e2, h2⟩ := ih hx
      exact ⟨e2, by simp [promiseAll, h2]⟩

/-- C3 (counterexample): the claim asserts that the field named by the
chart xAxisKey always holds the data point name. In `c3Chart` the
single series entry uses the key `date`, which is also the xAxisKey, so
the series assignment overwrites the name: the flattened record maps
`date` to the series value `5`, not to the name `"Jan"`. -/
theorem C3_xAxisKey_collision :
    flattenChart c3Chart
      = .ok (.obj [("xAxisKey", .str "date"), ("data", .arr [.obj [("date", .num 5)]])])
      ∧ JsVal.num 5 ≠ JsVal.str "Jan" :=
  ⟨rfl, fun h => JsVal.noConfusion h⟩

/-- C3 (amended): flattening a nested point `{name, series:[{key,value}]}`
builds exactly the fields `flatFields`: the xAxisKey field is always
present; for every key `k`, the flattened record holds the value of the
last series entry with key `k` when one exists, else the point name when
`k` is the xAxisKey, and otherwise the key is absent (never a null or
zero placeholder). In particular the xAxisKey field holds the name
whenever no series entry collides with the xAxisKey. -/
theorem C3_flatten_point_characterization (xKey : String) (nameV : JsVal)
    (entries : List (String × JsVal)) :
    flattenPoint (.str xKey) (nestedPoint nameV entries)
        = .ok (.obj (flatFields xKey nameV entries))
      ∧ (∀ k, fieldLookup (flatFields xKey nameV entries) k
          = match lastVal entries k with
            | some v => some v
            | none => if k = xKey then some nameV else none)
      ∧ (fieldLookup (flatFields xKey nameV entries) xKey).isSome = true := by
  have hchar : ∀ k, fieldLookup (flatFields xKey nameV entries) k
      = match lastVal entries k with
        | some v => some v
        | none => if k = xKey then some nameV else none := by
    intro k
    rw [flatFields, fieldLookup_foldl_setField]
    cases lastVal entries k with
    | some v => rfl
    | none =>
      simp only [fieldLookup]
      rcases eq_or_ne k xKey with h | h
      · rw [if_pos h.symm, if_pos h]
      · rw [if_neg (Ne.symm h), if_neg h]
  refine ⟨?_, hchar, ?_⟩
  · have h1 : flattenPoint (.str xKey) (nestedPoint nameV entries)
        = match foldExcept addSeriesEntry [(xKey, nameV)] (entries.map mkSeriesEntry) with
          | .error e => .error e
          | .ok dp => .ok (.obj dp) := rfl
    rw [h1, foldExcept_addSeriesEntry]
    rfl
  · rw [hchar xKey]
    cases lastVal entries xKey with
    | some v => rfl
    | none => simp

/-- C4 (counterexample): the chart-flattening transform is not a no-op
on its own output. Flattening `c4Chart` yields `c4Flat`; flattening
`c4Flat` again rebuilds each data point as `{date: item.name}`, and the
flat point has no `name` field, so the point collapses to
`{date: undefined}` and the `Views` series field is lost. -/
theorem C4_not_idempotent :
    flattenChart c4Chart = .ok c4Flat
      ∧ flattenChart c4Flat = .ok c4Twice
      ∧ c4Twice ≠ c4Flat :=
  ⟨rfl, rfl, by simp [c4Twice, c4Flat]⟩

/-- C4 (amended): applying the flattening transform to an already-flat
chart (every data point an object without a truthy-array `series`
field, as the transform itself produces) is not a no-op: each data
point is replaced by the single-field record mapping the xAxisKey to
the point's `name` property — `undefined` when, as in flattened output
keyed by any other xAxisKey, that property is absent — so all series
fields are dropped. -/
theorem C4_reflatten_collapses (fs : List (String × JsVal)) (items : List JsVal)
    (hdata : fieldLookup fs "data" = some (.arr items))
    (hflat : ∀ item ∈ items, ∃ ifs, item = JsVal.obj ifs
      ∧ isTruthyArray ((fieldLookup ifs "series").getD .undefined) = false) :
    flattenChart (.obj fs)
      = .ok (.obj (setField fs "data" (.arr (items.map
          (collapsePoint ((fieldLookup fs "xAxisKey").getD .undefined)))))) := by
  have hmap : mapExcept (flattenPoint ((fieldLookup fs "xAxisKey").getD .undefined)) items
      = .ok (items.map (collapsePoint ((fieldLookup fs "xAxisKey").getD .undefined))) := by
    apply mapExcept_congr
    intro item hmem
    obtain ⟨ifs, hobj, hser⟩ := hflat item hmem
    subst hobj
    simp only [flattenPoint, getProp, collapsePoint, ownField]
    rw [isTruthyArray] at hser
    rw [hser]
    simp
  simp only [flattenChart, getProp, hdata, Option.getD_some]
  rw [hmap]
  rfl

/-- C4 (witness for the amended claim): re-flattening the flat chart
`c4Flat` collapses its single data point to `{date: undefined}`. -/
theorem C4_reflatten_collapses_witness :
    flattenChart (.obj [("xAxisKey", JsVal.str "date"),
        ("data", .arr [.obj [("date", .str "Jan"), ("Views", .num 100)]])])
      = .ok (.obj (setField [("xAxisKey", JsVal.str "date"),
          ("data", .arr [.obj [("date", .str "Jan"), ("Views", .num 100)]])] "data"
          (.arr ([JsVal.obj [("date", .str "Jan"), ("Views", .num 100)]].map
            (collapsePoint ((fieldLookup [("xAxisKey", JsVal.str "date"),
                ("data", .arr [.obj [("date", .str "Jan"), ("Views", .num 100)]])]
              "xAxisKey").getD .undefined)))))) :=
  C4_reflatten_collapses _ _ rfl (by
    intro item hmem
    rw [List.mem_singleton] at hmem
    subst hmem
    exact ⟨[("date", .str "Jan"), ("Views", .num 100)], rfl, rfl⟩)

/-- C10: chart normalization is total over the optional absences — when
the top-level `charts` field is absent, or present but not a (truthy)
array, the result passes through unchanged with no error; and a chart
whose `data` field is absent is normalized with `data` set to the empty
array rather than an error. -/
theorem C10_chart_normalization_total (fs ifs : List (String × JsVal)) (chartsV : JsVal) :
    (fieldLookup fs "charts" = none → transformCharts (.obj fs) = .ok (.obj fs))
      ∧ (fieldLookup fs "charts" = some chartsV → isTruthyArray chartsV = false →
          transformCharts (.obj fs) = .ok (.obj fs))
      ∧ (fieldLookup ifs "data" = none →
          flattenChart (.obj ifs) = .ok (.obj (setField ifs "data" (.arr [])))) := by
  refine ⟨?_, ?_, ?_⟩
  · intro h
    simp [transformCharts, getProp, h, truthy]
  · intro h hta
    rw [isTruthyArray] at hta
    simp [transformCharts, getProp, h, hta]
  · intro h
    simp [flattenChart, getProp, h, spreadFields]

/-- C10 (witness): a result with no `charts` field passes through; a
result whose `charts` is the non-array string `"x"` passes through; a
chart with only a title and no `data` gains an empty `data` array. -/
theorem C10_chart_normalization_total_witness :
    transformCharts (.obj [("combinedStrategicInsights", JsVal.str "i")])
        = .ok (.obj [("combinedStrategicInsights", JsVal.str "i")])
      ∧ transformCharts (.obj [("charts", JsVal.str "x")])
        = .ok (.obj [("charts", JsVal.str "x")])
      ∧ flattenChart (.obj [("title", JsVal.str "t")])
        = .ok (.obj (setField [("title", JsVal.str "t")] "data" (.arr []))) :=
  ⟨(C10_chart_normalization_total [("combinedStrategicInsights", JsVal.str "i")]
      [("title", JsVal.str "t")] (JsVal.str "x")).1 rfl,
   (C10_chart_normalization_total [("charts", JsVal.str "x")]
      [("title", JsVal.str "t")] (JsVal.str "x")).2.1 rfl rfl,
   (C10_chart_normalization_total [("charts", JsVal.str "x")]
      [("title", JsVal.str "t")] (JsVal.str "x")).2.2 rfl⟩

/-- C1 (counterexample): the claim asserts `analyzeFiles` fails when the
parsed object omits a required field. The code performs no such check:
for the valid JSON text of an empty object, normalization succeeds and
returns the object even though `filesDetected`,
`combinedStrategicInsights` and `recommendations` are all absent. -/
theorem C1_missing_required_field_passes :
    analyzeFilesNormalize (some "\x7b\x7d") (.ok (.obj [])) = .ok (.obj [])
      ∧ fieldLookup ([] : List (String × JsVal)) "filesDetected" = none :=
  ⟨rfl, rfl⟩

/-- C1 (amended): the analysis response handling fails with a
descriptive error when the response text is missing or empty and
propagates the `JSON.parse` error when the text is not valid JSON; but
a successfully parsed object is returned (after chart flattening)
without any required-field validation — a missing `filesDetected`
remains missing in the returned value, never default-filled. -/
theorem C1_parse_error_and_missing_field_behavior (parsed : Except String JsVal)
    (t e : String) (fs : List (String × JsVal)) (j2 : JsVal) :
    analyzeFilesNormalize none parsed = .error "No response from Gemini"
      ∧ analyzeFilesNormalize (some "") parsed = .error "No response from Gemini"
      ∧ (t ≠ "" → analyzeFilesNormalize (some t) (.error e) = .error e)
      ∧ (t ≠ "" → transformCharts (.obj fs) = .ok j2 →
          analyzeFilesNormalize (some t) (.ok (.obj fs)) = .ok j2
            ∧ (fieldLookup fs "filesDetected" = none →
                ∃ fs2, j2 = .obj fs2 ∧ fieldLookup fs2 "filesDetected" = none)) := by
  refine ⟨rfl, rfl, ?_, ?_⟩
  · intro ht
    simp [analyzeFilesNormalize, ht]
  · intro ht htr
    constructor
    · simp [analyzeFilesNormalize, ht, htr]
    · intro hmiss
      obtain ⟨fs2, hobj, hlook⟩ :=
        transformCharts_obj_preserves fs "filesDetected" (by decide) j2 htr
      exact ⟨fs2, hobj, hlook.trans hmiss⟩

/-- C1 (witness for the amended claim): instantiated at the empty-object
response. -/
theorem C1_behavior_witness :
    analyzeFilesNormalize none (.ok (.obj [])) = .error "No response from Gemini"
      ∧ analyzeFilesNormalize (some "") (.ok (.obj [])) = .error "No response from Gemini"
      ∧ ("\x7b\x7d" ≠ "" → analyzeFilesNormalize (some "\x7b\x7d") (.error "SyntaxError")
          = .error "SyntaxError")
      ∧ ("\x7b\x7d" ≠ "" → transformCharts (.obj []) = .ok (.obj []) →
          analyzeFilesNormalize (some "\x7b\x7d") (.ok (.obj [])) = .ok (.obj [])
            ∧ (fieldLookup ([] : List (String × JsVal)) "filesDetected" = none →
                ∃ fs2, JsVal.obj [] = .obj fs2 ∧ fieldLookup fs2 "filesDetected" = none)) :=
  C1_parse_error_and_missing_field_behavior (.ok (.obj [])) "\x7b\x7d" "SyntaxError" [] (.obj [])

/-- C2: file ingestion keeps the handle's name and size, keeps content
under the bound verbatim, and truncates longer content to exactly the
first `MAX_CHARS` characters plus the marker appended once; in
particular the output length is `min L MAX_CHARS` plus the marker
length exactly when `L` exceeds the bound. -/
theorem C2_truncation (file : FileHandle) (content : String) :
    ∃ fd, readFileAsText file (.ok content) =.ok fd
      ∧ fd.name = file.name ∧ fd.size = file.size
      ∧ fd.content = (if content.length ≤ MAX_CHARS then content
          else content.take MAX_CHARS ++ TRUNC_MARKER)
      ∧ fd.content.length = min content.length MAX_CHARS
          + (if content.length ≤ MAX_CHARS then 0 else TRUNC_MARKER.length) := by
  refine ⟨⟨file.name, truncatedContent content, file.size⟩, rfl, rfl, rfl, ?_, ?_⟩
  · rw [truncatedContent]
    rcases le_or_lt content.length MAX_CHARS with h | h
    · rw [if_neg (not_lt.mpr h), if_pos h]
    · rw [if_pos h, if_neg (not_le.mpr h)]
  · rw [truncatedContent]
    rcases le_or_lt content.length MAX_CHARS with h | h
    · rw [if_neg (not_lt.mpr h), if_pos h, Nat.min_eq_left h, Nat.add_zero]
    · rw [if_pos h, if_neg (not_le.mpr h), String.length_append]
      have h1 : (content.take MAX_CHARS).length = min MAX_CHARS content.data.length := by
        rw [String.take_eq, String.length_mk, List.length_take]
      have h2 : content.length = content.data.length := rfl
      rw [h1, h2]
      omega

/-- C5: when any selected file's read fails, the aggregate wait over the
per-file ingestions yields a single failure, the workflow moves to the
error state with that failure as message, and no `AnalysisResult` is
produced — the final state does not depend on the analyze call at all
(its `analysisData` is left untouched). -/
theorem C5_failfast_ingestion (st : AppUI) (reads : List (Except String String))
    (analyze1 analyze2 : List FileData → Except String AnalysisResult)
    (f : FileHandle) (err : String)
    (hne : st.files ≠ [])
    (hmem : (f, Except.error err) ∈ st.files.zip reads) :
    ∃ e, promiseAll ((st.files.zip reads).map (fun p => readFileAsText p.1 p.2)) = .error e
      ∧ handleAnalyze st reads analyze1
          = { st with appState := AppState.ERROR, errorMsg := some (errMsgOrDefault e) }
      ∧ handleAnalyze st reads analyze1 = handleAnalyze st reads analyze2 := by
  have hmem2 : Except.error err ∈ (st.files.zip reads).map (fun p => readFileAsText p.1 p.2) :=
    List.mem_map_of_mem (fun p => readFileAsText p.1 p.2) hmem
  obtain ⟨e, he⟩ := promiseAll_error_of_mem hmem2
  have hlen : ¬ st.files.length = 0 := fun h0 => hne (List.length_eq_zero.mp h0)
  refine ⟨e, he, ?_, ?_⟩
  · simp only [handleAnalyze]
    rw [if_neg hlen, he]
  · simp only [handleAnalyze]
    rw [if_neg hlen, he, if_neg hlen]

/-- C5 (witness): three files where file 2's read fails. -/
theorem C5_failfast_ingestion_witness :
    ∃ e, promiseAll ((c5Start.files.zip c5Reads).map (fun p => readFileAsText p.1 p.2))
        = .error e
      ∧ handleAnalyze c5Start c5Reads (fun _ => .error "unused")
          = { c5Start with appState := AppState.ERROR, errorMsg := some (errMsgOrDefault e) }
      ∧ handleAnalyze c5Start c5Reads (fun _ => .error "unused")
          = handleAnalyze c5Start c5Reads (fun _ => .ok c5Sample) :=
  C5_failfast_ingestion c5Start c5Reads _ _ bCsv "NotReadableError"
    (List.cons_ne_nil _ _)
    (List.mem_cons_of_mem _ (List.mem_cons_self _ _))

/-- C6 (counterexample): after a mid-stream delivery failure the
placeholder message keeps its streaming flag while `isTyping` resets, so
the next send is accepted and creates a second streaming-flagged
message: two model messages are simultaneously in streaming state, and
that turn's send was not a no-op, refuting the claimed invariant. -/
theorem C6_two_streaming_after_failure :
    c6AfterFail.isTyping = false
      ∧ countStreaming c6AfterFail.messages = 1
      ∧ ¬ (∀ s ∈ sendStates c6Retry (.chunksThenDone []), countStreaming s.messages ≤ 1) := by
  refine ⟨by decide, by decide, by decide⟩

/-- C6 (amended): while `isTyping` is set — from the moment a send is
accepted until its stream completes or fails — any further send attempt
is a strict no-op: no state transition happens, the final state is the
input state, and in particular the message list length and the session
are unchanged. (After a mid-stream failure `isTyping` is cleared, so
that guard no longer blocks the next send even though the failed
placeholder still carries its streaming flag.) -/
theorem C6_send_noop_while_inflight (st : ChatUI) (o : StreamOutcome)
    (h : st.isTyping = true) :
    sendStates st o = [] ∧ handleSend st o = st
      ∧ (handleSend st o).messages.length = st.messages.length := by
  have h0 : sendStates st o = [] := by
    simp [sendStates, h]
  refine ⟨h0, ?_, ?_⟩
  · rw [handleSend, h0]; rfl
  · rw [handleSend, h0]; rfl

/-- C6 (witness for the amended claim): a concrete in-flight state. -/
theorem C6_send_noop_while_inflight_witness :
    sendStates c6Typing .openError = [] ∧ handleSend c6Typing .openError = c6Typing
      ∧ (handleSend c6Typing .openError).messages.length = c6Typing.messages.length :=
  C6_send_noop_while_inflight c6Typing .openError rfl

/-- Bridge between the boolean `Set`-style membership test of the
source (`existingNames.has`) and list membership. -/
theorem contains_true_iff (l : List String) (s : String) :
    l.contains s = true ↔ s ∈ l := by
  induction l with
  | nil => simp
  | cons x xs ih =>
    simp only [List.contains_cons, Bool.or_eq_true, beq_iff_eq, ih, List.mem_cons]

/-- C7: selected filenames are deduplicated by name — a member of the
result is either an originally selected file (kept unchanged, so a
later duplicate is dropped, not merged) or a new file whose name was
not yet selected; name-uniqueness is preserved across selections; and
selecting [a.csv, b.csv] then [a.csv (different size), c.csv] yields
exactly the original a.csv, b.csv and the new c.csv. -/
theorem C7_dedup_by_name :
    (∀ (prev nf : List FileHandle),
      (∀ f, f ∈ handleFilesSelected prev nf
          ↔ (f ∈ prev ∨ (f ∈ nf ∧ f.name ∉ prev.map FileHandle.name)))
        ∧ ((prev.map FileHandle.name).Nodup → (nf.map FileHandle.name).Nodup →
            ((handleFilesSelected prev nf).map FileHandle.name).Nodup))
      ∧ handleFilesSelected (handleFilesSelected [] [aCsv, bCsv]) [aCsv2, cCsv]
          = [aCsv, bCsv, cCsv] := by
  refine ⟨fun prev nf => ⟨?_, ?_⟩, by decide⟩
  · intro f
    simp only [handleFilesSelected, List.mem_append, List.mem_filter,
      Bool.not_eq_true', ← Bool.not_eq_true, contains_true_iff]
  · intro hp hn
    simp only [handleFilesSelected, List.map_append]
    refine List.nodup_append.mpr ⟨hp, ?_, ?_⟩
    · exact hn.sublist ((List.filter_sublist _).map FileHandle.name)
    · intro a ha hafilter
      obtain ⟨f, hf, hfa⟩ := List.mem_map.mp hafilter
      rw [List.mem_filter] at hf
      rw [Bool.not_eq_true', ← Bool.not_eq_true, contains_true_iff] at hf
      exact hf.2 (hfa ▸ ha)

/-- C7 (witness): applying the theorem at the concrete selections. -/
theorem C7_dedup_by_name_witness :
    ((handleFilesSelected [aCsv] [bCsv]).map FileHandle.name).Nodup
      ∧ handleFilesSelected (handleFilesSelected [] [aCsv, bCsv]) [aCsv2, cCsv]
          = [aCsv, bCsv, cCsv] :=
  ⟨(C7_dedup_by_name.1 [aCsv] [bCsv]).2 (by decide) (by decide), C7_dedup_by_name.2⟩

/-- The fold in `promptText` appends exactly one labeled block per file
in order. -/
theorem prompt_fold_eq (files : List FileData) :
    ∀ (i : Nat) (a : String),
      (List.enumFrom i files).foldl
        (fun acc p =>
          acc ++ "--- FILE " ++ toString (p.1 + 1) ++ ": " ++ p.2.name ++ " ---\n"
            ++ p.2.content ++ "\n\n") a
        = a ++ fileBlocks (i + 1) files := by
  induction files with
  | nil => intro i a; simp [fileBlocks, List.enumFrom]
  | cons f rest ih =>
    intro i a
    rw [List.enumFrom_cons, List.foldl_cons, ih (i + 1)]
    simp [fileBlocks, String.append_assoc]

/-- C8: prompt assembly produces the header, then for each file in the
order provided the delimiter line `--- FILE i: name ---` (1-based)
immediately followed by that file's content, then the closing
directive; for the single small file views.csv the assembled block is
the literal text containing `--- FILE 1: views.csv ---` immediately
followed by the full file text. -/
theorem C8_prompt_assembly :
    (∀ files : List FileData,
      promptText files
        = "Analyze the following CSV files:\n\n" ++ fileBlocks 1 files
          ++ "\nProvide a detailed analysis following the ConTima structure.")
      ∧ promptText [viewsCsv]
          = "Analyze the following CSV files:\n\n--- FILE 1: views.csv ---\ndate,views\n2024-01-01,10\n2024-01-02,12\n\n\nProvide a detailed analysis following the ConTima structure." := by
  constructor
  · intro files
    rw [promptText]
    rw [show (List.enum files) = List.enumFrom 0 files from rfl, prompt_fold_eq files 0]
  · rfl

/-- C9: the chat seed message depends only on the uploaded files and,
from the analysis result, only on the detected-file list, the combined
insights text and the recommendation list — results differing only in
narrative sections or charts yield an identical seed message. -/
theorem C9_seed_depends_only_on_summary_fields (files : List FileData)
    (a b : AnalysisResult)
    (h1 : a.filesDetected = b.filesDetected)
    (h2 : a.combinedStrategicInsights = b.combinedStrategicInsights)
    (h3 : a.recommendations = b.recommendations) :
    contextMsg files a = contextMsg files b := by
  simp only [contextMsg, stringifyAnalysisSummary, h1, h2, h3]

/-- C9 (witness): `c9A` and `c9B` differ in two narrative sections and
the charts, yet seed the chat with the same message. -/
theorem C9_seed_witness : contextMsg [viewsCsv] c9A = contextMsg [viewsCsv] c9B :=
  C9_seed_depends_only_on_summary_fields [viewsCsv] c9A c9B rfl rfl rfl

end ConTima
